import Mathlib

/-!
Verification of the WhatsApp browser-automation client (`src/client/whatsapp_client.py`)
and the Taobao page pool (`src/client/taobao_client.py`).

The Python code is shallowly embedded: pure string manipulation becomes Lean functions
over `String` / `List Char`, the stateful client caches become explicit state records,
and the page pool becomes a labelled transition system.  Python-specific primitives
(`str.strip`, `str.lower`, `str.replace`, the regexes used by the client) are embedded
by small executable helpers named `py*` / `find*` below.
-/

namespace AgentService

/-- Python `str.isspace` characters that `str.strip()` removes (the ASCII ones,
which are the only ones the client ever meets). -/
def pyIsSpace (c : Char) : Bool :=
  c == ' ' || c == '\t' || c == '\n' || c == '\r' || c == '\x0b' || c == '\x0c'

/-- Embeds Python `str.strip()` on the character list. -/
def pyStripList (l : List Char) : List Char :=
  ((l.dropWhile pyIsSpace).reverse.dropWhile pyIsSpace).reverse

/-- Embeds Python `str.strip()`. -/
def pyStrip (s : String) : String :=
  String.mk (pyStripList s.toList)

/-- Embeds Python `str.lower()` (ASCII case folding). -/
def pyLower (s : String) : String :=
  String.mk (s.toList.map Char.toLower)

/-- Embeds Python `s.replace("+", "")`: removes every plus sign. -/
def removePlus (s : String) : String :=
  String.mk (s.toList.filter (fun c => c != '+'))

/-- Does `hay` start with `needle`? (helper for substring containment). -/
def startsWithList : List Char → List Char → Bool
  | _, [] => true
  | [], _ :: _ => false
  | a :: as, b :: bs => a == b && startsWithList as bs

/-- Does `hay` contain `needle` as a contiguous run? -/
def containsList : List Char → List Char → Bool
  | [], needle => needle.isEmpty
  | hay@(_ :: t), needle => startsWithList hay needle || containsList t needle

/-- Embeds the Python substring test `needle in hay`. -/
def strContains (hay needle : String) : Bool :=
  containsList hay.toList needle.toList

/-- Characters removed by the client's phone-number cleanup regex
`re.sub(r'[+\-\s\(\)]', '', s)`. -/
def isPhoneFormatChar (c : Char) : Bool :=
  c == '+' || c == '-' || c == '(' || c == ')' || pyIsSpace c

/-- Embeds `re.sub(r'[+\-\s\(\)]', '', s)`. -/
def stripPhoneChars (s : String) : String :=
  String.mk (s.toList.filter (fun c => !isPhoneFormatChar c))

/-- The normalization the matcher applies first:
`contact.lower().strip().replace("+", "")`. -/
def normContact (s : String) : String :=
  removePlus (pyStrip (pyLower s))

/-- Embeds `WhatsAppBrowserClient._is_contact_match` (whatsapp_client.py:1453-1487):
empty inputs never match; otherwise lowercase/strip/drop `+`, test equality, then
substring containment in either direction, and finally equality after removing all
phone-formatting characters. -/
def is_contact_match (current_contact target_contact : String) : Bool :=
  if current_contact == "" || target_contact == "" then false
  else
    let current := normContact current_contact
    let target := normContact target_contact
    if current == target then true
    else if strContains target current || strContains current target then true
    else stripPhoneChars current == stripPhoneChars target

/-- The normalization as the spec words it: lowercase, trim, and strip `+`, spaces,
hyphens and parentheses (all before any comparison). -/
def claimNormalize (s : String) : String :=
  String.mk ((pyStrip (pyLower s)).toList.filter
    (fun c => !(c == '+' || c == ' ' || c == '-' || c == '(' || c == ')')))

/-- The matcher as the spec words it: after `claimNormalize`, equal or one contains
the other.  Kept only to compare against `is_contact_match`. -/
def claimContactMatch (a b : String) : Bool :=
  let x := claimNormalize a
  let y := claimNormalize b
  x == y || strContains y x || strContains x y

/-- The behaviour `is_contact_match` actually implements, written out flat. -/
def amendedContactMatch (a b : String) : Bool :=
  !(a == "") && !(b == "") &&
    (normContact a == normContact b ||
     strContains (normContact b) (normContact a) ||
     strContains (normContact a) (normContact b) ||
     stripPhoneChars (normContact a) == stripPhoneChars (normContact b))

/-- Worker for `pySplit`: scans the haystack left to right; `skip` counts separator
characters still to consume after a hit. -/
def pySplitGo (sep : List Char) : List Char → Nat → List Char → List String
  | [], _, acc => [String.mk acc.reverse]
  | c :: t, 0, acc =>
      if startsWithList (c :: t) sep then
        String.mk acc.reverse :: pySplitGo sep t (sep.length - 1) []
      else pySplitGo sep t 0 (c :: acc)
  | _ :: t, k + 1, acc => pySplitGo sep t k acc

/-- Embeds Python `s.split(sep)` for a non-empty separator: split at every
non-overlapping occurrence, scanning left to right. -/
def pySplit (s sep : String) : List String :=
  pySplitGo sep.toList s.toList 0 []

lemma strBeqComm (x y : String) : (x == y) = (y == x) := by
  cases h1 : x == y <;> cases h2 : y == x <;> simp_all [beq_iff_eq]

lemma is_contact_match_eq_amended (a b : String) :
    is_contact_match a b = amendedContactMatch a b := by
  unfold is_contact_match amendedContactMatch
  cases Ha : a == "" <;> cases Hb : b == "" <;> simp [Ha, Hb]
  cases h1 : (normContact a == normContact b) <;>
    cases h2 : strContains (normContact b) (normContact a) <;>
      cases h3 : strContains (normContact a) (normContact b) <;>
        simp_all [beq_iff_eq]

lemma amendedContactMatch_comm (a b : String) :
    amendedContactMatch a b = amendedContactMatch b a := by
  unfold amendedContactMatch
  rw [strBeqComm (normContact a) (normContact b),
    strBeqComm (stripPhoneChars (normContact a)) (stripPhoneChars (normContact b))]
  cases a == "" <;> cases b == "" <;>
    cases normContact b == normContact a <;>
      cases strContains (normContact b) (normContact a) <;>
        cases strContains (normContact a) (normContact b) <;>
          cases stripPhoneChars (normContact b) == stripPhoneChars (normContact a) <;> rfl

/-- C2 (counterexample): the claimed characterization — equal or one contains the
other after lowercasing, trimming and stripping `+`, spaces, hyphens and parens —
disagrees with `_is_contact_match` on the pair `("ab", "a bc")`: stripped, "ab" is
contained in "abc", but the code checks containment before removing spaces, so it
returns false. -/
theorem contact_match_spec_normalization_counterexample :
    claimContactMatch "ab" "a bc" = true ∧ is_contact_match "ab" "a bc" = false := by
  decide

/-- C2 (amended): `_is_contact_match` returns true exactly when both inputs are
non-empty and, after lowercasing, trimming and stripping `+`, the names are equal or
one contains the other, or they become equal after additionally stripping whitespace,
hyphens and parentheses; the relation is commutative, and the three quoted examples
hold as stated. -/
theorem contact_match_amended_characterization :
    (∀ a b, is_contact_match a b = amendedContactMatch a b) ∧
    (∀ a b, is_contact_match a b = is_contact_match b a) ∧
    is_contact_match "+33 6 12 34" "33612 34" = true ∧
    is_contact_match "Alice" "alice smith" = true ∧
    is_contact_match "Bob" "Carol" = false := by
  refine ⟨is_contact_match_eq_amended, ?_, by decide, by decide, by decide⟩
  intro a b
  rw [is_contact_match_eq_amended, is_contact_match_eq_amended,
    amendedContactMatch_comm]

/-! ## Message model and the unread scan (`get_unread_messages`) -/

/-- Embeds `MessageItem` (models.py:9-16).  `type` is `"received"` or `"sent"`. -/
structure MessageItem where
  type : String
  sender : String
  content : String
  datetime : String
  timestamp : String
  images : List String
deriving DecidableEq

/-- Embeds the current-chat cache check at whatsapp_client.py:1959-1965: an entry is
emitted only when both the fresh observation and the cache are present, the sender is
the same, and the content differs. -/
def checkCurrentChatNewMessage (cache observed : Option MessageItem) :
    List MessageItem :=
  match observed, cache with
  | some cur, some prev =>
      if cur.sender == prev.sender then
        if cur.content != prev.content then [cur] else []
      else []
  | _, _ => []

/-- The dedup key built at whatsapp_client.py:2108: `f"{sender}:{content}"`. -/
def msgKey (m : MessageItem) : String :=
  m.sender ++ ":" ++ m.content

/-- Embeds the dedup loop at whatsapp_client.py:2103-2112: walk the entries in
order, keeping one whose key was not seen before. -/
def dedupLoop : List MessageItem → List String → List MessageItem
  | [], _ => []
  | m :: rest, seen =>
      if msgKey m ∈ seen then dedupLoop rest seen
      else m :: dedupLoop rest (msgKey m :: seen)

/-- `unique_messages` as computed from `unread_messages` (whatsapp_client.py:2103-2112). -/
def dedupMessages (msgs : List MessageItem) : List MessageItem :=
  dedupLoop msgs []

/-- One unread-badge DOM hit: its aria-label, whether a muted indicator was found
inside it, and the enclosing chat-list item (when one of the three ancestor lookups
succeeds). -/
structure ChatListItem where
  nameTexts : List String
  fullText : String
deriving DecidableEq

structure UnreadIndicator where
  ariaLabel : Option String
  muted : Bool
  chatItem : Option ChatListItem
deriving DecidableEq

/-- Leftmost maximal digit run, embedding `re.search(r'(\d+)', label)`. -/
def firstNumberRun : List Char → Option String
  | [] => none
  | c :: rest =>
      if c.isDigit then some (String.mk (c :: rest.takeWhile Char.isDigit))
      else firstNumberRun rest

/-- Embeds the unread-count extraction (whatsapp_client.py:2004-2013): default `"1"`,
else the first number found in the aria-label. -/
def extractUnreadCount (ariaLabel : Option String) : String :=
  match ariaLabel with
  | none => "1"
  | some l =>
      match firstNumberRun l.toList with
      | none => "1"
      | some digits => digits

/-- Embeds `re.match(r'^\d{1,2}:\d{2}$', s)`: one or two digits, a colon, two digits. -/
def isTimeText (s : String) : Bool :=
  match s.toList with
  | [a, b, c, d] => a.isDigit && b == ':' && c.isDigit && d.isDigit
  | [a, b, c, d, e] => a.isDigit && b.isDigit && c == ':' && d.isDigit && e.isDigit
  | _ => false

/-- Embeds the contact-name scan (whatsapp_client.py:2064-2072): the first name text
that is non-empty after stripping and is not a bare `HH:MM` timestamp; default
`"Unknown"`. -/
def pickContactName : List String → String
  | [] => "Unknown"
  | t :: rest =>
      if t != "" && pyStrip t != "" && !isTimeText (pyStrip t) then pyStrip t
      else pickContactName rest

/-- Embeds the per-indicator body of the unread loop (whatsapp_client.py:1990-2100):
skip muted indicators, parse the unread count from the aria-label, skip indicators
with no enclosing chat item, and build a received `MessageItem` whose content is the
chat item's whole text.  The parsed count is returned alongside the entry because the
code only feeds it to the log line. -/
def processUnreadItem (nowStr nowIso : String) (item : UnreadIndicator) :
    Option (MessageItem × String) :=
  if item.muted then none
  else
    let unread_count := extractUnreadCount item.ariaLabel
    match item.chatItem with
    | none => none
    | some chat =>
        some ({ type := "received"
                sender := pickContactName chat.nameTexts
                content := chat.fullText
                datetime := nowStr
                timestamp := nowIso
                images := [] }, unread_count)

/-- Embeds `get_unread_messages` (whatsapp_client.py:1940-2118) as a function of the
cache (`self._current_chat_info`), the freshly observed current-chat last message,
the unread-badge DOM hits and the current time.  Returns the message list and the
new cache value.  When no badge hit is found the code returns early (line 1987)
without running the dedup pass. -/
def get_unread_messages (cache observed : Option MessageItem)
    (items : List UnreadIndicator) (nowStr nowIso : String) :
    List MessageItem × Option MessageItem :=
  let cacheEntries := checkCurrentChatNewMessage cache observed
  if items.isEmpty then (cacheEntries, observed)
  else
    let scanned := cacheEntries ++
      items.filterMap (fun it => (processUnreadItem nowStr nowIso it).map Prod.fst)
    (dedupMessages scanned, observed)

/-- C1: the last-seen cache is set to the fresh observation after every scan
(line 1968), and a second scan of the same open chat emits an extra unread entry
exactly when the sender is unchanged and the content differs from the cached one
(lines 1959-1965). -/
theorem dedup_cache_two_scans (c₀ : Option MessageItem) (m₁ m₂ : MessageItem)
    (t₁ t₂ t₃ t₄ : String) :
    (get_unread_messages c₀ (some m₁) [] t₁ t₂).2 = some m₁ ∧
    (get_unread_messages (some m₁) (some m₂) [] t₃ t₄).1 =
      (if m₂.sender == m₁.sender && m₂.content != m₁.content then [m₂] else []) ∧
    (get_unread_messages (some m₁) (some m₂) [] t₃ t₄).2 = some m₂ := by
  refine ⟨rfl, ?_, rfl⟩
  simp only [get_unread_messages, checkCurrentChatNewMessage, List.isEmpty_nil]
  cases h1 : m₂.sender == m₁.sender <;> cases h2 : m₂.content != m₁.content <;>
    simp [h1, h2]

/-! ## C3: fixed scan scenario for contact "Alice" -/

def aliceChatItem : ChatListItem :=
  { nameTexts := ["Alice", "10:24"], fullText := "Alice10:24hello there!" }

/-- The scenario's badge node: aria-label "2 unread messages", not muted. -/
def aliceUnreadTwo : UnreadIndicator :=
  { ariaLabel := some "2 unread messages", muted := false, chatItem := some aliceChatItem }

/-- Same node with a different count in the label, used to show the returned entry
carries no count. -/
def aliceUnreadFive : UnreadIndicator :=
  { ariaLabel := some "5 unread messages", muted := false, chatItem := some aliceChatItem }

/-- C3 (counterexample): the scan's return value does not contain the unread count at
all — the `MessageItem` list returned for the "2 unread messages" label is identical
to the one returned for a "5 unread messages" label, even though the counts parsed
from the two labels differ; the count is only interpolated into a log line. -/
theorem unread_count_not_returned_counterexample :
    get_unread_messages none none [aliceUnreadTwo] "2025-01-01 12:00:00"
        "2025-01-01T12:00:00+08:00"
      = get_unread_messages none none [aliceUnreadFive] "2025-01-01 12:00:00"
        "2025-01-01T12:00:00+08:00" ∧
    extractUnreadCount aliceUnreadTwo.ariaLabel = "2" ∧
    extractUnreadCount aliceUnreadFive.ariaLabel = "5" := by
  decide

/-- C3 (amended): for the Alice scenario the scan returns exactly one entry, a
received `MessageItem` with sender "Alice"; the count string "2" is parsed from the
aria-label (defaulting to "1" when the label has no digits or is absent) but is only
logged, never part of the returned entry; a muted variant of the same node is
dropped. -/
theorem alice_unread_scenario_amended :
    (get_unread_messages none none [aliceUnreadTwo] "2025-01-01 12:00:00"
        "2025-01-01T12:00:00+08:00").1 =
      [{ type := "received", sender := "Alice", content := "Alice10:24hello there!",
         datetime := "2025-01-01 12:00:00", timestamp := "2025-01-01T12:00:00+08:00",
         images := [] }] ∧
    (processUnreadItem "2025-01-01 12:00:00" "2025-01-01T12:00:00+08:00"
        aliceUnreadTwo).map Prod.snd = some "2" ∧
    extractUnreadCount (some "unread messages") = "1" ∧
    extractUnreadCount none = "1" ∧
    processUnreadItem "2025-01-01 12:00:00" "2025-01-01T12:00:00+08:00"
      { aliceUnreadTwo with muted := true } = none := by
  decide

/-! ## C4: the dedup pass -/

lemma dedupLoop_sublist (msgs : List MessageItem) :
    ∀ seen, List.Sublist (dedupLoop msgs seen) msgs := by
  induction msgs with
  | nil => intro seen; simp [dedupLoop]
  | cons m rest ih =>
      intro seen
      by_cases h : msgKey m ∈ seen
      · simp only [dedupLoop]
        rw [if_pos h]
        exact (ih seen).cons m
      · simp only [dedupLoop]
        rw [if_neg h]
        exact (ih _).cons₂ m

lemma dedupLoop_nodup (msgs : List MessageItem) :
    ∀ seen, ((dedupLoop msgs seen).map msgKey).Nodup ∧
      ∀ y ∈ dedupLoop msgs seen, msgKey y ∉ seen := by
  induction msgs with
  | nil => intro seen; simp [dedupLoop]
  | cons m rest ih =>
      intro seen
      by_cases h : msgKey m ∈ seen
      · have ihs := ih seen
        simp only [dedupLoop]
        rw [if_pos h]
        exact ihs
      · have ihx := ih (msgKey m :: seen)
        simp only [dedupLoop]
        rw [if_neg h]
        refine ⟨List.nodup_cons.mpr ⟨?_, ihx.1⟩, ?_⟩
        · intro hmem
          rcases List.mem_map.mp hmem with ⟨y, hy, hkey⟩
          exact (ihx.2 y hy) (by simp [hkey])
        · intro y hy
          rcases List.mem_cons.mp hy with rfl | hy2
          · exact h
          · have hnot := ihx.2 y hy2
            simp only [List.mem_cons] at hnot
            tauto

lemma dedupLoop_covers (msgs : List MessageItem) :
    ∀ seen, ∀ x ∈ msgs, msgKey x ∈ seen ∨
      ∃ y ∈ dedupLoop msgs seen, msgKey y = msgKey x := by
  induction msgs with
  | nil => intro seen x hx; simp at hx
  | cons m rest ih =>
      intro seen x hx
      by_cases h : msgKey m ∈ seen
      · simp only [dedupLoop]
        rw [if_pos h]
        rcases List.mem_cons.mp hx with rfl | hx2
        · exact Or.inl h
        · exact ih seen x hx2
      · simp only [dedupLoop]
        rw [if_neg h]
        rcases List.mem_cons.mp hx with rfl | hx2
        · exact Or.inr ⟨x, List.mem_cons_self _ _, rfl⟩
        · rcases ih (msgKey m :: seen) x hx2 with hmem | ⟨y, hy, hkey⟩
          · rcases List.mem_cons.mp hmem with heq | hseen
            · exact Or.inr ⟨m, List.mem_cons_self _ _, heq.symm⟩
            · exact Or.inl hseen
          · exact Or.inr ⟨y, List.mem_cons_of_mem _ hy, hkey⟩

lemma dedupLoop_first (msgs : List MessageItem) :
    ∀ seen, ∀ y ∈ dedupLoop msgs seen,
      msgs.find? (fun m => msgKey m == msgKey y) = some y := by
  induction msgs with
  | nil => intro seen y hy; simp [dedupLoop] at hy
  | cons m rest ih =>
      intro seen y hy
      simp only [dedupLoop] at hy
      by_cases h : msgKey m ∈ seen
      · rw [if_pos h] at hy
        have hne : msgKey m ≠ msgKey y := by
          intro he
          exact ((dedupLoop_nodup rest seen).2 y hy) (he ▸ h)
        rw [List.find?_cons_of_neg _ (by simp [hne])]
        exact ih seen y hy
      · rw [if_neg h] at hy
        rcases List.mem_cons.mp hy with rfl | hy2
        · rw [List.find?_cons_of_pos _ (by simp)]
        · have hy_not := (dedupLoop_nodup rest (msgKey m :: seen)).2 y hy2
          have hne : msgKey m ≠ msgKey y := by
            intro he
            exact hy_not (by simp [he])
          rw [List.find?_cons_of_neg _ (by simp [hne])]
          exact ih _ y hy2

def msgSenderColon : MessageItem :=
  { type := "received", sender := "a:b", content := "c",
    datetime := "d1", timestamp := "d2", images := [] }

def msgContentColon : MessageItem :=
  { type := "received", sender := "a", content := "b:c",
    datetime := "d1", timestamp := "d2", images := [] }

/-- C4 (counterexample): the dedup key is the joined string `sender ++ ":" ++
content`, so the two entries `("a:b", "c")` and `("a", "b:c")` — distinct (sender,
content) pairs — collapse to one entry, contradicting "exactly one entry for each
distinct (sender, content) pair". -/
theorem dedup_key_collision_counterexample :
    dedupMessages [msgSenderColon, msgContentColon] = [msgSenderColon] ∧
    msgSenderColon.sender ≠ msgContentColon.sender ∧
    msgSenderColon.content ≠ msgContentColon.content := by
  decide

/-- C4 (amended): the dedup pass keys on the joined string `sender ++ ":" ++
content` (which identifies the (sender, content) pair whenever no sender contains a
colon): the result is a subsequence of the input (order preserved), its keys are
pairwise distinct, every input key is represented, and every surviving entry is the
first input entry bearing its key. -/
theorem dedup_messages_amended (msgs : List MessageItem) :
    List.Sublist (dedupMessages msgs) msgs ∧
    ((dedupMessages msgs).map msgKey).Nodup ∧
    (∀ x ∈ msgs, ∃ y ∈ dedupMessages msgs, msgKey y = msgKey x) ∧
    (∀ y ∈ dedupMessages msgs, msgs.find? (fun m => msgKey m == msgKey y) = some y) := by
  unfold dedupMessages
  refine ⟨dedupLoop_sublist msgs [], (dedupLoop_nodup msgs []).1, ?_, dedupLoop_first msgs []⟩
  intro x hx
  rcases dedupLoop_covers msgs [] x hx with hmem | hex
  · simp at hmem
  · exact hex

/-- C4 (witness): the amended dedup theorem applied to the concrete two-entry list:
a representative of the second entry's key survives. -/
theorem dedup_messages_amended_witness :
    ∃ y ∈ dedupMessages [msgSenderColon, msgContentColon],
      msgKey y = msgKey msgContentColon :=
  (dedup_messages_amended [msgSenderColon, msgContentColon]).2.2.1
    msgContentColon (by decide)

/-! ## C5: parsing one message DOM node (`_parse_message_element`) -/

/-- One `img` child: its `src` attribute and, for `blob:` URLs, what
`_convert_blob_to_base64` returned for it (`none` when the conversion failed). -/
structure ImageRef where
  src : String
  blobData : Option String
deriving DecidableEq

/-- One message DOM node as `_parse_message_element` reads it: the `class` attribute,
the first `data-pre-plain-text` attribute, the first `aria-label` value, the text
fragments of the `.selectable-text.copyable-text` children, the `img` children and
the text of the visible time elements. -/
structure MessageNode where
  classAttr : String
  prePlainText : Option String
  ariaLabel : Option String
  contentTexts : List String
  images : List ImageRef
  timeTexts : List String
deriving DecidableEq

def startsWithStr (s p : String) : Bool :=
  startsWithList s.toList p.toList

/-- Embeds the image filter (whatsapp_client.py:1124-1150): keep the conversion
result for `blob:` URLs, keep `data:image/` URLs as-is, and skip every other URL. -/
def keptImages (imgs : List ImageRef) : List String :=
  imgs.filterMap (fun img =>
    if img.src == "" then none
    else if startsWithStr img.src "blob:" then img.blobData
    else if startsWithStr img.src "data:image/" then some img.src
    else none)

/-- Embeds `re.search(r'\] ([^:]+):', pre)`: the first `"] "` followed by at least
one non-colon character and a colon. -/
def findSenderMatch : List Char → Option String
  | [] => none
  | ']' :: t =>
      (match t with
       | ' ' :: rest =>
           let cap := rest.takeWhile (fun x => x != ':')
           if !cap.isEmpty && !(rest.drop cap.length).isEmpty then some (String.mk cap)
           else findSenderMatch t
       | _ => findSenderMatch t)
  | _ :: t => findSenderMatch t

/-- Embeds `re.search(r'\[([^\]]+)\]', pre)`: the first non-empty bracketed group. -/
def findBracketMatch : List Char → Option String
  | [] => none
  | c :: t =>
      if c == '[' then
        let cap := t.takeWhile (fun x => x != ']')
        if !cap.isEmpty && !(t.drop cap.length).isEmpty then some (String.mk cap)
        else findBracketMatch t
      else findBracketMatch t

/-- Embeds `aria_label.replace('：', '')`. -/
def removeFullwidthColon (s : String) : String :=
  String.mk (s.toList.filter (fun c => c != '：'))

/-- Embeds the sender resolution (whatsapp_client.py:1082-1104): "Me" for outgoing
nodes; otherwise the `data-pre-plain-text` capture, falling back to the aria-label
with full-width colons removed, defaulting to "Unknown". -/
def parseSender (node : MessageNode) (is_outgoing : Bool) : String :=
  if is_outgoing then "Me"
  else
    let sender :=
      match node.prePlainText with
      | some pre =>
          (match findSenderMatch pre.toList with
           | some s => pyStrip s
           | none => "Unknown")
      | none => "Unknown"
    if sender == "Unknown" then
      match node.ariaLabel with
      | some al =>
          if al != "" && strContains al "：" then pyStrip (removeFullwidthColon al)
          else sender
      | none => sender
    else sender

/-- Embeds the content loop (whatsapp_client.py:1107-1117): keep each fragment that
is non-empty after stripping and is not a bare `HH:MM` stamp. -/
def contentParts (texts : List String) : List String :=
  texts.filterMap (fun t =>
    if t != "" && pyStrip t != "" then
      if !isTimeText (pyStrip t) then some (pyStrip t) else none
    else none)

/-- The first visible time-element text that looks like `HH:MM`, stripped
(whatsapp_client.py:1169-1176). -/
def firstTimeText : List String → Option String
  | [] => none
  | t :: rest =>
      if t != "" && isTimeText (pyStrip t) then some (pyStrip t)
      else firstTimeText rest

/-- Embeds the datetime resolution (whatsapp_client.py:1152-1177): the bracketed
group of `data-pre-plain-text` when present, else the first visible `HH:MM` plus the
current date, else the empty string. -/
def parseDatetimeStr (node : MessageNode) (nowDate : String) : String :=
  let ds :=
    match node.prePlainText with
    | some pre =>
        (match findBracketMatch pre.toList with
         | some d => pyStrip d
         | none => "")
    | none => ""
  if ds == "" then
    match firstTimeText node.timeTexts with
    | some tt => tt ++ ", " ++ nowDate
    | none => ""
  else ds

/-- Embeds `_parse_message_element` (whatsapp_client.py:1066-1189) on its success
path: direction from the class attribute, sender, joined content, kept images,
datetime — and `none` when both the content and the image list end up empty
(lines 1179-1181). -/
def parse_message_element (nowDate nowStr nowIso : String) (node : MessageNode) :
    Option MessageItem :=
  let is_outgoing := strContains node.classAttr "message-out"
  let message_type := if is_outgoing then "sent" else "received"
  let sender := parseSender node is_outgoing
  let content := pyStrip (String.intercalate " " (contentParts node.contentTexts))
  let images := keptImages node.images
  let datetime_str := parseDatetimeStr node nowDate
  if content == "" && images.isEmpty then none
  else
    some { type := message_type, sender := sender, content := content,
           datetime := if datetime_str == "" then nowStr else datetime_str,
           timestamp := nowIso, images := images }

/-- C5: `_parse_message_element` never yields a record whose text content and image
list are both empty — such nodes are dropped (`None`) instead. -/
theorem parse_message_element_nonempty (nowDate nowStr nowIso : String)
    (node : MessageNode) :
    (parse_message_element nowDate nowStr nowIso node).all
      (fun m => !(m.content == "" && m.images.isEmpty)) = true := by
  simp only [parse_message_element]
  split <;> simp_all
  tauto

/-! ## C6: splitting the generated reply into outbound chunks -/

/-- Embeds the chunking in `auto_reply_message` (whatsapp_client.py:414):
`[x.strip() for x in reply.split('\n\n') if x.strip()]`. -/
def splitReplyMessages (reply : String) : List String :=
  (pySplit reply "\n\n").filterMap (fun x =>
    if pyStrip x != "" then some (pyStrip x) else none)

/-- Embeds `message.replace('\n', ' ')`, applied to each chunk as it is sent
(whatsapp_client.py:423). -/
def sendChunkText (m : String) : String :=
  String.mk (m.toList.map (fun c => if c == '\n' then ' ' else c))

/-- C6: the reply `"Hi!\n\nHow can I help?"` splits on the double newline into
exactly the chunks `["Hi!", "How can I help?"]`, and each chunk is sent verbatim
(the newline-to-space rewrite applied at send time changes neither chunk). -/
theorem reply_split_two_chunks :
    splitReplyMessages "Hi!\n\nHow can I help?" = ["Hi!", "How can I help?"] ∧
    (splitReplyMessages "Hi!\n\nHow can I help?").map sendChunkText =
      ["Hi!", "How can I help?"] := by
  decide

/-! ## C7: keystrokes issued by `human_like_input` -/

inductive KeyEvent
  | selectAll
  | backspace
  | typeChar (c : Char)
  | enter
deriving DecidableEq

/-- Embeds `human_like_input` (whatsapp_client.py:1862-1939) as the keystroke
sequence it issues.  `doCorrection` stands for the 30% draw that triggers the
backspace-retype of the last character.  Clearing is select-all plus backspace
(lines 1897-1901); when the stripped text is empty the function returns right after
clearing (line 1903-1904), before any typing and before the Enter press. -/
def human_like_input_keys (text : String)
    (clear_first press_enter doCorrection : Bool) : List KeyEvent :=
  let clearKeys := if clear_first then [KeyEvent.selectAll, KeyEvent.backspace] else []
  if pyStrip text == "" then clearKeys
  else
    let chars := (pyStrip text).toList
    let typed := chars.map KeyEvent.typeChar
    let correction :=
      if doCorrection then
        match chars.getLast? with
        | some c => [KeyEvent.backspace, KeyEvent.typeChar c]
        | none => []
      else []
    let enterKeys := if press_enter then [KeyEvent.enter] else []
    clearKeys ++ typed ++ correction ++ enterKeys

/-- Character keystrokes in an event sequence. -/
def countTypedChars (evs : List KeyEvent) : Nat :=
  (evs.filter (fun e => match e with | KeyEvent.typeChar _ => true | _ => false)).length

/-- C7 (counterexample): the claim "keystroke count equals the input length for every
non-empty input" fails on inputs with surrounding whitespace: the non-empty input
`" "` produces 0 character keystrokes, and `"a "` produces 1, because the code types
`text.strip()`. -/
theorem keystroke_count_counterexample :
    " " ≠ "" ∧
    countTypedChars (human_like_input_keys " " true true false) = 0 ∧
    String.length " " = 1 ∧
    countTypedChars (human_like_input_keys "a " true true false) = 1 ∧
    String.length "a " = 2 := by
  decide

lemma countTypedChars_append (a b : List KeyEvent) :
    countTypedChars (a ++ b) = countTypedChars a + countTypedChars b := by
  simp [countTypedChars, List.filter_append]

lemma countTypedChars_map_typeChar (l : List Char) :
    countTypedChars (l.map KeyEvent.typeChar) = l.length := by
  induction l with
  | nil => rfl
  | cons c t ih => simpa [countTypedChars, List.filter] using ih

lemma toList_eq_nil {s : String} (h : s.toList = []) : s = "" := by
  cases s with
  | mk d =>
      simp only [String.toList] at h
      subst h
      rfl

lemma getLast?_some : ∀ (l : List Char), l ≠ [] → ∃ c, l.getLast? = some c
  | [a], _ => ⟨a, rfl⟩
  | a :: b :: t, _ => by
      obtain ⟨c, hc⟩ := getLast?_some (b :: t) (by simp)
      exact ⟨c, by simpa [List.getLast?] using hc⟩

/-- C7 (amended): ignoring the optional correction, the number of character
keystrokes equals the length of the *stripped* input (so it equals the input length
exactly when the input carries no leading/trailing whitespace); with the correction
the count rises by one retyped character, netting zero content change. -/
theorem keystroke_count_amended (text : String) (cf pe : Bool) :
    countTypedChars (human_like_input_keys text cf pe false) = (pyStrip text).length ∧
    countTypedChars (human_like_input_keys text cf pe true) =
      (pyStrip text).length + (if pyStrip text == "" then 0 else 1) := by
  have hclear : countTypedChars
      (if cf then [KeyEvent.selectAll, KeyEvent.backspace] else []) = 0 := by
    cases cf <;> rfl
  have henter : countTypedChars (if pe then [KeyEvent.enter] else []) = 0 := by
    cases pe <;> rfl
  by_cases h : pyStrip text == ""
  · have hempty : pyStrip text = "" := by simpa using h
    constructor <;> simp [human_like_input_keys, h, hclear, hempty]
  · have hne : pyStrip text ≠ "" := by simpa using h
    obtain ⟨c, hc⟩ := getLast?_some _ (fun hl => hne (toList_eq_nil hl))
    have hnil : countTypedChars [] = 0 := rfl
    have hcorr : countTypedChars [KeyEvent.backspace, KeyEvent.typeChar c] = 1 := rfl
    constructor
    · simp [human_like_input_keys, h, countTypedChars_append, hclear, henter,
        countTypedChars_map_typeChar, hnil]
    · have hcd : (pyStrip text).data.getLast? = some c := hc
      simp [human_like_input_keys, h, hcd, countTypedChars_append, hclear, henter,
        countTypedChars_map_typeChar, hcorr]
      cases pe <;> rfl

/-! ## C8: the random reload step and the last-seen cache -/

/-- The client attribute the scan/reload logic owns: `self._current_chat_info`
(whatsapp_client.py:166). -/
structure ClientCacheState where
  currentChatInfo : Option MessageItem
deriving DecidableEq

inductive PageAction
  | reload
  | handleUiChanges
deriving DecidableEq

/-- Embeds `random_reload_page` (whatsapp_client.py:2120-2128): when the 1-in-100
draw fires (`triggerReload`), the page is reloaded and `_handle_whatsapp_ui_changes`
runs (which only clicks modals/cookie banners, whatsapp_client.py:294-307).  Neither
path assigns any client attribute — in particular not `_current_chat_info`. -/
def random_reload_page (st : ClientCacheState) (triggerReload : Bool) :
    ClientCacheState × List PageAction :=
  if triggerReload then (st, [PageAction.reload, PageAction.handleUiChanges])
  else (st, [])

def cachedAliceMsg : MessageItem :=
  { type := "received", sender := "Alice", content := "hello",
    datetime := "2025-01-01 12:00:00", timestamp := "2025-01-01T12:00:00+08:00",
    images := [] }

/-- C8 (counterexample): a fired reload step on a populated last-seen cache performs
the reload but leaves the cache exactly as populated as before — it is never reset to
empty. -/
theorem reload_keeps_cache_counterexample :
    (random_reload_page { currentChatInfo := some cachedAliceMsg } true).2 =
      [PageAction.reload, PageAction.handleUiChanges] ∧
    (random_reload_page { currentChatInfo := some cachedAliceMsg } true).1.currentChatInfo
      = some cachedAliceMsg ∧
    some cachedAliceMsg ≠ (none : Option MessageItem) := by
  decide

/-- C8 (amended): the reload step carries the last-seen cache over unchanged whether
or not the reload fires; the cache only changes when an unread scan overwrites it
with the freshly observed current-chat message. -/
theorem reload_cache_unchanged_amended (st : ClientCacheState) (trigger : Bool)
    (cache observed : Option MessageItem) (items : List UnreadIndicator)
    (t₁ t₂ : String) :
    (random_reload_page st trigger).1 = st ∧
    (get_unread_messages cache observed items t₁ t₂).2 = observed := by
  constructor
  · unfold random_reload_page
    split <;> rfl
  · unfold get_unread_messages
    split <;> rfl

/-! ## C10: the monitor's default task -/

/-- Embeds `MonitorTask.__init__` (whatsapp_client.py:95-113) with the counters it
zeroes; the wrapped coroutine itself is identified by the task name. -/
structure MonitorTask where
  taskType : String
  name : String
  enabled : Bool
  executionCount : Nat
  errorCount : Nat
deriving DecidableEq

def mkMonitorTask (taskType name : String) (enabled : Bool) : MonitorTask :=
  { taskType := taskType, name := name, enabled := enabled,
    executionCount := 0, errorCount := 0 }

/-- `WhatsAppMonitor.tasks`: a Python dict, i.e. an insertion-ordered association
list with in-place overwrite. -/
structure MonitorState where
  tasks : List (String × MonitorTask)
deriving DecidableEq

/-- Embeds `self.tasks[name] = task`: overwrite in place, else append. -/
def dictInsert (tasks : List (String × MonitorTask)) (name : String)
    (task : MonitorTask) : List (String × MonitorTask) :=
  if (tasks.lookup name).isSome then
    tasks.map (fun kv => if kv.1 == name then (name, task) else kv)
  else tasks ++ [(name, task)]

/-- Embeds `add_task` (whatsapp_client.py:2241-2252); the code's default for
`enabled` is `True`. -/
def add_task (st : MonitorState) (taskType name : String) (enabled : Bool) :
    MonitorState :=
  { st with tasks := dictInsert st.tasks name (mkMonitorTask taskType name enabled) }

/-- Embeds `disable_task` (whatsapp_client.py:2259-2262): a no-op on unknown names. -/
def disable_task (st : MonitorState) (name : String) : MonitorState :=
  { st with tasks := st.tasks.map (fun kv =>
      if kv.1 == name then (kv.1, { kv.2 with enabled := false }) else kv) }

/-- Embeds `enable_task` (whatsapp_client.py:2254-2257). -/
def enable_task (st : MonitorState) (name : String) : MonitorState :=
  { st with tasks := st.tasks.map (fun kv =>
      if kv.1 == name then (kv.1, { kv.2 with enabled := true }) else kv) }

/-- Embeds `WhatsAppMonitor.__init__` (whatsapp_client.py:2213-2227): register the
single default task "auto_reply_message" (type `auto_reply`, enabled by the
`add_task` default) and immediately disable it.  The screenshot task is commented
out in the source. -/
def newWhatsAppMonitor : MonitorState :=
  disable_task (add_task { tasks := [] } "auto_reply" "auto_reply_message" true)
    "auto_reply_message"

/-- Embeds `_execute_tasks` (whatsapp_client.py:2267-2305): walk the tasks in order,
skip disabled ones, bump `execution_count` on success and `error_count` on failure
(`outcome name` says whether the awaited call returns normally), and record a result
per executed task.  Returns the executed task names and the updated state. -/
def executeTasks (outcome : String → Bool) (st : MonitorState) :
    List String × MonitorState :=
  let r := st.tasks.foldl
    (fun (acc : List String × List (String × MonitorTask)) kv =>
      if kv.2.enabled then
        if outcome kv.1 then
          (acc.1 ++ [kv.1],
           acc.2 ++ [(kv.1, { kv.2 with executionCount := kv.2.executionCount + 1 })])
        else
          (acc.1 ++ [kv.1],
           acc.2 ++ [(kv.1, { kv.2 with errorCount := kv.2.errorCount + 1 })])
      else (acc.1, acc.2 ++ [kv]))
    ([], [])
  (r.1, { tasks := r.2 })

/-- C10: a fresh `WhatsAppMonitor` holds exactly one task, named
"auto_reply_message", already disabled; a cycle run before any `enable_task` call
executes zero tasks and changes nothing, whatever the tasks would have returned. -/
theorem monitor_default_task_disabled :
    newWhatsAppMonitor.tasks =
      [("auto_reply_message",
        { taskType := "auto_reply", name := "auto_reply_message", enabled := false,
          executionCount := 0, errorCount := 0 })] ∧
    (∀ outcome, (executeTasks outcome newWhatsAppMonitor).1 = []) ∧
    (∀ outcome, (executeTasks outcome newWhatsAppMonitor).2 = newWhatsAppMonitor) := by
  refine ⟨by decide, fun outcome => rfl, fun outcome => rfl⟩

/-! ## C9: the `PagePool` invariant (taobao_client.py:14-109)

Pages are modelled by allocation ids; `nextId` stands for the browser handing out a
fresh page object on `new_page()`.  `available` is the deque (front first), `inUse`
the set. -/

structure PoolState where
  maxPages : Nat
  available : List Nat
  inUse : List Nat
  nextId : Nat
deriving DecidableEq

/-- `PagePool.__init__(max_pages)`: empty deque, empty set. -/
def initPool (maxPages : Nat) : PoolState :=
  { maxPages := maxPages, available := [], inUse := [], nextId := 0 }

/-- One call to `get_page`, `return_page` or `close_all_pages`, each branch a
constructor:
* `getFromPool`: `get_page` pops the deque front into the in-use set — both on the
  fast path and after the full-pool wait (taobao_client.py:36-40 and 54-60);
* `getCreate`: with an empty deque and spare capacity, `get_page` adds a freshly
  created page (taobao_client.py:43-50);
* `returnAlive`: `return_page` on an in-use page whose liveness probe succeeds moves
  it to the deque back (taobao_client.py:70-80);
* `returnDead`: the probe fails, the page is closed and dropped (taobao_client.py:81-86);
* `returnUnknown`: returning a page not in the in-use set is a no-op;
* `closeAll`: `close_all_pages` clears both collections (taobao_client.py:88-100). -/
inductive PoolStep : PoolState → PoolState → Prop
  | getFromPool (s : PoolState) (p : Nat) (rest : List Nat) :
      s.available = p :: rest →
      PoolStep s { s with available := rest, inUse := p :: s.inUse }
  | getCreate (s : PoolState) :
      s.available = [] → s.inUse.length < s.maxPages →
      PoolStep s { s with inUse := s.nextId :: s.inUse, nextId := s.nextId + 1 }
  | returnAlive (s : PoolState) (p : Nat) :
      p ∈ s.inUse →
      PoolStep s { s with inUse := s.inUse.erase p, available := s.available ++ [p] }
  | returnDead (s : PoolState) (p : Nat) :
      p ∈ s.inUse →
      PoolStep s { s with inUse := s.inUse.erase p }
  | returnUnknown (s : PoolState) (p : Nat) :
      p ∉ s.inUse →
      PoolStep s s
  | closeAll (s : PoolState) :
      PoolStep s { s with available := [], inUse := [] }

/-- States reachable by some call sequence on a fresh pool. -/
inductive PoolReachable (maxPages : Nat) : PoolState → Prop
  | init : PoolReachable maxPages (initPool maxPages)
  | step {s t : PoolState} : PoolReachable maxPages s → PoolStep s t →
      PoolReachable maxPages t

/-- The inductive invariant: capacity bound, no duplicates in either collection,
the collections are disjoint, and every page id predates the allocator counter. -/
def PoolInv (s : PoolState) : Prop :=
  s.available.length + s.inUse.length ≤ s.maxPages ∧
  s.available.Nodup ∧
  s.inUse.Nodup ∧
  (∀ p, p ∈ s.available → p ∉ s.inUse) ∧
  (∀ p, p ∈ s.available → p < s.nextId) ∧
  (∀ p, p ∈ s.inUse → p < s.nextId)

lemma poolInv_init (maxPages : Nat) : PoolInv (initPool maxPages) := by
  refine ⟨by simp [initPool], by simp [initPool], by simp [initPool], ?_, ?_, ?_⟩ <;>
    intro p hp <;> simp [initPool] at hp

lemma poolInv_step {s t : PoolState} (hs : PoolInv s) (hst : PoolStep s t) :
    PoolInv t := by
  obtain ⟨hlen, hndA, hndU, hdisj, hbndA, hbndU⟩ := hs
  cases hst with
  | getFromPool p rest havail =>
      rw [havail] at hlen hndA hdisj hbndA
      have hpU : p ∉ s.inUse := hdisj p (List.mem_cons_self _ _)
      refine ⟨by simp at hlen ⊢; omega,
        (List.nodup_cons.mp hndA).2,
        List.nodup_cons.mpr ⟨hpU, hndU⟩, ?_, ?_, ?_⟩
      · intro q hq hqU
        rcases List.mem_cons.mp hqU with rfl | hqU2
        · exact (List.nodup_cons.mp hndA).1 hq
        · exact hdisj q (List.mem_cons_of_mem _ hq) hqU2
      · intro q hq
        exact hbndA q (List.mem_cons_of_mem _ hq)
      · intro q hq
        rcases List.mem_cons.mp hq with rfl | hq2
        · exact hbndA q (List.mem_cons_self _ _)
        · exact hbndU q hq2
  | getCreate havail hcap =>
      have hfresh : s.nextId ∉ s.inUse := fun hmem =>
        absurd (hbndU _ hmem) (lt_irrefl _)
      refine ⟨by rw [havail] at hlen; simp at hlen ⊢; rw [havail]; simp; omega,
        hndA, List.nodup_cons.mpr ⟨hfresh, hndU⟩, ?_, ?_, ?_⟩
      · intro q hq
        rw [havail] at hq
        simp at hq
      · intro q hq
        exact Nat.lt_succ_of_lt (hbndA q hq)
      · intro q hq
        rcases List.mem_cons.mp hq with rfl | hq2
        · exact Nat.lt_succ_self _
        · exact Nat.lt_succ_of_lt (hbndU q hq2)
  | returnAlive p hp =>
      have hpA : p ∉ s.available := fun hmem => hdisj p hmem hp
      have herase : (s.inUse.erase p).length = s.inUse.length - 1 :=
        List.length_erase_of_mem hp
      have hlenU : 1 ≤ s.inUse.length := List.length_pos.mpr
        (List.ne_nil_of_mem hp)
      refine ⟨by simp [herase]; omega, ?_, hndU.erase p, ?_, ?_, ?_⟩
      · exact List.nodup_append.mpr ⟨hndA, List.nodup_singleton p,
          by simpa [List.disjoint_singleton] using hpA⟩
      · intro q hq hqE
        rcases List.mem_append.mp hq with hqA | hqp
        · exact hdisj q hqA (List.mem_of_mem_erase hqE)
        · rcases List.mem_singleton.mp hqp with rfl
          exact ((hndU.mem_erase_iff).mp hqE).1 rfl
      · intro q hq
        rcases List.mem_append.mp hq with hqA | hqp
        · exact hbndA q hqA
        · rcases List.mem_singleton.mp hqp with rfl
          exact hbndU q hp
      · intro q hq
        exact hbndU q (List.mem_of_mem_erase hq)
  | returnDead p hp =>
      have herase : (s.inUse.erase p).length = s.inUse.length - 1 :=
        List.length_erase_of_mem hp
      refine ⟨by simp [herase]; omega, hndA, hndU.erase p, ?_, hbndA, ?_⟩
      · intro q hq hqE
        exact hdisj q hq (List.mem_of_mem_erase hqE)
      · intro q hq
        exact hbndU q (List.mem_of_mem_erase hq)
  | returnUnknown p hp =>
      exact ⟨hlen, hndA, hndU, hdisj, hbndA, hbndU⟩
  | closeAll =>
      refine ⟨by simp, by simp, by simp, ?_, ?_, ?_⟩ <;> intro q hq <;> simp at hq

lemma poolReachable_inv {maxPages : Nat} {s : PoolState}
    (h : PoolReachable maxPages s) : PoolInv s := by
  induction h with
  | init => exact poolInv_init maxPages
  | step _ hstep ih => exact poolInv_step ih hstep

/-- C9: in every state reachable by any sequence of `get_page`, `return_page` and
`close_all_pages` calls, the idle deque and the in-use set together hold at most
`max_pages` pages, and no page sits in both collections at once. -/
theorem page_pool_invariant (maxPages : Nat) (s : PoolState)
    (h : PoolReachable maxPages s) :
    s.available.length + s.inUse.length ≤ s.maxPages ∧
    ∀ p, ¬(p ∈ s.available ∧ p ∈ s.inUse) := by
  obtain ⟨hlen, _, _, hdisj, _, _⟩ := poolReachable_inv h
  exact ⟨hlen, fun p hp => hdisj p hp.1 hp.2⟩

/-- C9 (witness): the invariant theorem applied to the concrete state reached from a
fresh pool of capacity 2 by one page creation followed by an alive return. -/
theorem page_pool_invariant_witness :
    ({ maxPages := 2, available := [0], inUse := [], nextId := 1 } : PoolState).available.length
        + ({ maxPages := 2, available := [0], inUse := [], nextId := 1 } : PoolState).inUse.length
        ≤ ({ maxPages := 2, available := [0], inUse := [], nextId := 1 } : PoolState).maxPages ∧
    ∀ p, ¬(p ∈ ({ maxPages := 2, available := [0], inUse := [], nextId := 1 } : PoolState).available ∧
        p ∈ ({ maxPages := 2, available := [0], inUse := [], nextId := 1 } : PoolState).inUse) :=
  page_pool_invariant 2 _
    (PoolReachable.step
      (PoolReachable.step PoolReachable.init
        (PoolStep.getCreate (initPool 2) rfl (by decide)))
      (PoolStep.returnAlive _ 0 (List.mem_singleton.mpr rfl)))

end AgentService
